import Mathlib

/-!
# Verification of the fixed-block serial line monitor

Shallow embedding of `src/backend/serial_debug_test.py` and
`src/raspberrypi/serial_debug_test.py` (the two near-duplicate monitor
scripts), together with proofs of the testable properties of the spec.

Bytes are modelled as `Nat` values (with `< 256` hypotheses where the
claim needs them); wall-clock times as `ℚ` (Python's `time.time()` is a
real-valued clock, and the monitor only subtracts and compares times).
-/

namespace SerialMonitor

/-! ## FrameRenderer

The per-frame renderings computed inside `monitor_serial`:
`hexstr = data.hex().upper()` and
`ascstr = ''.join(chr(b) if 32 <= b <= 126 else '.' for b in data)`
(backend lines 146-149, raspberrypi lines 129-132). -/

/-- One lowercase hex digit, as produced by Python's `bytes.hex()`:
digits `0`-`9` then `a`-`f`. -/
def hexDigitLower (n : Nat) : Char :=
  if n < 10 then Char.ofNat (48 + n) else Char.ofNat (87 + n)

/-- `data.hex()`: two lowercase hex digits per byte, high nibble first,
no separators. -/
def pyHexLower (bs : List Nat) : List Char :=
  bs.flatMap (fun b => [hexDigitLower (b / 16), hexDigitLower (b % 16)])

/-- `str.upper()` on the characters produced here (ASCII only). -/
def strUpper (s : List Char) : List Char := s.map Char.toUpper

/-- `data.hex().upper()` as a character list. -/
def toHexChars (bs : List Nat) : List Char := strUpper (pyHexLower bs)

/-- `hexstr = data.hex().upper()`. -/
def toHex (bs : List Nat) : String := String.mk (toHexChars bs)

/-- `chr(b) if 32 <= b <= 126 else '.'`. -/
def asciiChar (b : Nat) : Char :=
  if 32 ≤ b ∧ b ≤ 126 then Char.ofNat b else '.'

/-- The character list behind `ascstr`. -/
def toAsciiChars (bs : List Nat) : List Char := bs.map asciiChar

/-- `ascstr = ''.join(chr(b) if 32 <= b <= 126 else '.' for b in data)`. -/
def toAscii (bs : List Nat) : String := String.mk (toAsciiChars bs)

/-- Is `c` an uppercase hexadecimal digit (`0`-`9` or `A`-`F`)? -/
def isUpperHexDigit (c : Char) : Bool :=
  (decide ('0' ≤ c) && decide (c ≤ '9')) || (decide ('A' ≤ c) && decide (c ≤ 'F'))

/-- Value of a hexadecimal digit character, accepting either case. -/
def hexVal (c : Char) : Option Nat :=
  if '0' ≤ c ∧ c ≤ '9' then some (c.toNat - 48)
  else if 'A' ≤ c ∧ c ≤ 'F' then some (c.toNat - 55)
  else if 'a' ≤ c ∧ c ≤ 'f' then some (c.toNat - 87)
  else none

/-- Decode a hex string (two digits per byte, high nibble first) back to
bytes; `none` on odd length or a non-digit. -/
def fromHex : List Char → Option (List Nat)
  | [] => some []
  | [_] => none
  | c1 :: c2 :: rest =>
    match hexVal c1, hexVal c2, fromHex rest with
    | some h, some l, some r => some ((16 * h + l) :: r)
    | _, _, _ => none

theorem toHexChars_nil : toHexChars [] = [] := rfl

theorem toHexChars_cons (b : Nat) (bs : List Nat) :
    toHexChars (b :: bs) =
      Char.toUpper (hexDigitLower (b / 16)) ::
        Char.toUpper (hexDigitLower (b % 16)) :: toHexChars bs := by
  simp [toHexChars, pyHexLower, strUpper]

theorem toHexChars_length (bs : List Nat) :
    (toHexChars bs).length = 2 * bs.length := by
  induction bs with
  | nil => rfl
  | cons b bs ih =>
    rw [toHexChars_cons]
    simp [ih]; ring

theorem nibble_upperHex {n : Nat} (h : n < 16) :
    isUpperHexDigit (Char.toUpper (hexDigitLower n)) = true := by
  revert h; revert n; decide

theorem nibble_hexVal {n : Nat} (h : n < 16) :
    hexVal (Char.toUpper (hexDigitLower n)) = some n := by
  revert h; revert n; decide

theorem toHexChars_upperHex (bs : List Nat) (hb : ∀ b ∈ bs, b < 256) :
    ∀ c ∈ toHexChars bs, isUpperHexDigit c = true := by
  induction bs with
  | nil => simp [toHexChars_nil]
  | cons b bs ih =>
    have hb0 : b < 256 := hb b (List.mem_cons_self b bs)
    have hdiv : b / 16 < 16 := Nat.div_lt_of_lt_mul (by omega)
    have hmod : b % 16 < 16 := Nat.mod_lt _ (by omega)
    rw [toHexChars_cons]
    intro c hc
    rcases List.mem_cons.mp hc with h | hc
    · exact h ▸ nibble_upperHex hdiv
    rcases List.mem_cons.mp hc with h | hc
    · exact h ▸ nibble_upperHex hmod
    · exact ih (fun x hx => hb x (List.mem_cons_of_mem _ hx)) c hc

theorem fromHex_toHexChars (bs : List Nat) (hb : ∀ b ∈ bs, b < 256) :
    fromHex (toHexChars bs) = some bs := by
  induction bs with
  | nil => rfl
  | cons b bs ih =>
    have hb0 : b < 256 := hb b (List.mem_cons_self b bs)
    have hdiv : b / 16 < 16 := Nat.div_lt_of_lt_mul (by omega)
    have hmod : b % 16 < 16 := Nat.mod_lt _ (by omega)
    rw [toHexChars_cons, fromHex, nibble_hexVal hdiv, nibble_hexVal hmod,
      ih (fun x hx => hb x (List.mem_cons_of_mem _ hx))]
    show some ((16 * (b / 16) + b % 16) :: bs) = some (b :: bs)
    have : 16 * (b / 16) + b % 16 = b := by omega
    rw [this]

set_option maxRecDepth 4096 in
theorem asciiChar_cases :
    ∀ b : Nat, b < 256 →
      ((asciiChar b = Char.ofNat b ↔ (32 ≤ b ∧ b ≤ 126)) ∧
       (¬(32 ≤ b ∧ b ≤ 126) → asciiChar b = '.')) := by decide

/-- C2: for every byte block `B` with `1 ≤ len(B) ≤ 16`, the hex rendering
`data.hex().upper()` has length `2*len(B)`, consists only of uppercase hex
digits, and decodes back to `B`. -/
theorem hex_rendering_roundtrip (bs : List Nat)
    (_hlo : 1 ≤ bs.length) (_hhi : bs.length ≤ 16) (hb : ∀ b ∈ bs, b < 256) :
    (toHex bs).length = 2 * bs.length ∧
    (∀ c ∈ toHexChars bs, isUpperHexDigit c = true) ∧
    fromHex (toHexChars bs) = some bs :=
  ⟨toHexChars_length bs, toHexChars_upperHex bs hb, fromHex_toHexChars bs hb⟩

theorem hex_rendering_roundtrip_witness :
    (1 ≤ ([0, 171, 255] : List Nat).length ∧ ([0, 171, 255] : List Nat).length ≤ 16 ∧
      (∀ b ∈ ([0, 171, 255] : List Nat), b < 256)) ∧
    ((toHex [0, 171, 255]).length = 2 * ([0, 171, 255] : List Nat).length ∧
      (∀ c ∈ toHexChars [0, 171, 255], isUpperHexDigit c = true) ∧
      fromHex (toHexChars [0, 171, 255]) = some [0, 171, 255]) :=
  ⟨⟨by decide, by decide, by decide⟩,
    hex_rendering_roundtrip [0, 171, 255] (by decide) (by decide) (by decide)⟩

/-- C3: for every byte block `B`, the ASCII rendering has length `len(B)`,
position `i` equals `chr(B[i])` iff `32 ≤ B[i] ≤ 126` and is `'.'`
otherwise, and the rendering is a deterministic function of `B`. -/
theorem ascii_rendering_spec (bs : List Nat) (hb : ∀ b ∈ bs, b < 256) :
    (toAscii bs).length = bs.length ∧
    (∀ (i : Nat) (h1 : i < bs.length) (h2 : i < (toAsciiChars bs).length),
      ((toAsciiChars bs).get ⟨i, h2⟩ = Char.ofNat (bs.get ⟨i, h1⟩) ↔
        (32 ≤ bs.get ⟨i, h1⟩ ∧ bs.get ⟨i, h1⟩ ≤ 126)) ∧
      (¬(32 ≤ bs.get ⟨i, h1⟩ ∧ bs.get ⟨i, h1⟩ ≤ 126) →
        (toAsciiChars bs).get ⟨i, h2⟩ = '.')) ∧
    (∀ cs : List Nat, bs = cs → toAscii bs = toAscii cs) := by
  refine ⟨?_, ?_, ?_⟩
  · show (toAsciiChars bs).length = bs.length
    simp [toAsciiChars]
  · intro i h1 h2
    have hget : (toAsciiChars bs).get ⟨i, h2⟩ = asciiChar (bs.get ⟨i, h1⟩) := by
      simp [toAsciiChars]
    rw [hget]
    exact asciiChar_cases (bs.get ⟨i, h1⟩) (hb _ (bs.get_mem i h1))
  · intro cs h
    rw [h]

theorem ascii_rendering_spec_witness :
    (∀ b ∈ ([72, 10, 255] : List Nat), b < 256) ∧
    ((toAscii [72, 10, 255]).length = ([72, 10, 255] : List Nat).length ∧
      (∀ (i : Nat) (h1 : i < ([72, 10, 255] : List Nat).length)
          (h2 : i < (toAsciiChars [72, 10, 255]).length),
        ((toAsciiChars [72, 10, 255]).get ⟨i, h2⟩ =
            Char.ofNat (([72, 10, 255] : List Nat).get ⟨i, h1⟩) ↔
          (32 ≤ ([72, 10, 255] : List Nat).get ⟨i, h1⟩ ∧
            ([72, 10, 255] : List Nat).get ⟨i, h1⟩ ≤ 126)) ∧
        (¬(32 ≤ ([72, 10, 255] : List Nat).get ⟨i, h1⟩ ∧
            ([72, 10, 255] : List Nat).get ⟨i, h1⟩ ≤ 126) →
          (toAsciiChars [72, 10, 255]).get ⟨i, h2⟩ = '.')) ∧
      (∀ cs : List Nat, [72, 10, 255] = cs → toAscii [72, 10, 255] = toAscii cs)) :=
  ⟨by decide, ascii_rendering_spec [72, 10, 255] (by decide)⟩

/-! ## The monitor loop

Shallow embedding of the `while running:` loop of `monitor_serial`
(backend lines 140-170, raspberrypi lines 123-155).  One `ReadEvent`
records everything the environment decides about one `ser.read(16)`
call: its outcome (`data`, possibly empty on a `VTIME` timeout, or a
transport-level exception), the wall-clock time when the iteration
processes it, whether the log write issued in that iteration raises,
and whether the SIGINT/SIGTERM handler fired during that iteration
(so that the `while running` check at the top of the NEXT iteration
sees `running == False`). -/

/-- Outcome of one `ser.read(16)` call. -/
inductive ReadResult
  | ok (data : List Nat)
  | ioErr
  deriving DecidableEq, Repr

/-- Environment-decided facts about one loop iteration. -/
structure ReadEvent where
  result : ReadResult
  now : ℚ
  logFails : Bool
  cancelDuring : Bool
  deriving DecidableEq, Repr

/-- Observable effects of a monitor run, in program order. -/
inductive Eff
  | readCall
  | consoleFrame (hex ascii : String) (n : Nat)
  | logFrame (hex ascii : String) (n : Nat)
  | logFlush
  | consoleIdle (t : ℚ)
  | logIdle (t : ℚ)
  | logHeaderLine (s : String)
  | logFooter
  | logClose
  | serClose
  | reportError
  deriving DecidableEq, Repr

/-- How the loop terminated. -/
inductive LoopExit
  | normal
  | raised
  | starved
  deriving DecidableEq, Repr

/-- Does the iteration raise an exception out of the loop?  `ser.read`
raising propagates directly; a log write raises only when the log file
is open, this iteration actually writes to it (a non-empty frame, or an
idle notice due), and the environment makes that write fail. -/
def iterRaises (logOpen : Bool) (la : ℚ) (e : ReadEvent) : Bool :=
  match e.result with
  | .ioErr => true
  | .ok data =>
    logOpen && e.logFails && (!data.isEmpty || decide (e.now - la > 10))

/-- Effects emitted by one non-raising iteration (backend lines 143-170,
raspberrypi lines 126-155): a non-empty frame is printed and, when the
log is open, appended and flushed; an empty read prints nothing unless
more than 10 seconds elapsed since `last_activity`, in which case a
single idle notice goes to console and (when open) the log. -/
def iterEffs (logOpen : Bool) (la : ℚ) (e : ReadEvent) : List Eff :=
  match e.result with
  | .ioErr => []
  | .ok data =>
    if data.isEmpty then
      if e.now - la > 10 then
        Eff.consoleIdle e.now ::
          (if logOpen then [Eff.logIdle e.now, Eff.logFlush] else [])
      else []
    else
      Eff.consoleFrame (toHex data) (toAscii data) data.length ::
        (if logOpen then
          [Eff.logFrame (toHex data) (toAscii data) data.length, Eff.logFlush]
         else [])

/-- Effects already performed when the iteration's log write raises: the
console output of that iteration precedes the failing write. -/
def raiseEffs (la : ℚ) (e : ReadEvent) : List Eff :=
  match e.result with
  | .ioErr => []
  | .ok data =>
    if data.isEmpty then
      if e.now - la > 10 then [Eff.consoleIdle e.now] else []
    else [Eff.consoleFrame (toHex data) (toAscii data) data.length]

/-- `last_activity` after the iteration: set to `time.time()` on a
non-empty frame, and reset to now when an idle notice is emitted;
otherwise unchanged. -/
def iterLa (la : ℚ) (e : ReadEvent) : ℚ :=
  match e.result with
  | .ioErr => la
  | .ok data =>
    if data.isEmpty then (if e.now - la > 10 then e.now else la) else e.now

/-- The `while running:` loop.  `running` is checked at the top of each
iteration; the handler fired during iteration `e` makes the next check
see `False`.  The event list is the supply of reads the environment can
answer; exhausting it while still running is reported as `.starved`
(the real loop would block forever, which no claim exercises). -/
def runLoop (logOpen : Bool) : Bool → ℚ → List ReadEvent → List Eff × LoopExit
  | false, _, _ => ([], .normal)
  | true, _, [] => ([], .starved)
  | true, la, e :: rest =>
    if iterRaises logOpen la e then (Eff.readCall :: raiseEffs la e, .raised)
    else
      let p := runLoop logOpen (!e.cancelDuring) (iterLa la e) rest
      (Eff.readCall :: iterEffs logOpen la e ++ p.1, p.2)

/-- The header lines written by the backend variant (lines 133-137),
without trailing newlines; the `"=" * 50` separator is one line. -/
def sepLine : String := String.mk (List.replicate 50 '=')

/-- Backend header block (lines 133-138). -/
def backendHeaderLines (ts port : String) : List String :=
  ["=== シリアル通信ログ ===",
   "開始時刻: " ++ ts,
   "ポート: " ++ port,
   "設定: 9600bps, 8bit, Even parity, 1 stop bit",
   sepLine]

/-- Raspberrypi header block (lines 115-120): same lines plus a
`VMIN=16, VTIME=5` line before the separator. -/
def rpiHeaderLines (ts port : String) : List String :=
  ["=== シリアル通信ログ ===",
   "開始時刻: " ++ ts,
   "ポート: " ++ port,
   "設定: 9600bps, 8bit, Even parity, 1 stop bit",
   "VMIN=16, VTIME=5 (0.5秒)",
   sepLine]

/-- Effects of writing a header block then flushing once (both variants
flush exactly once, immediately after the last header write). -/
def headerEffs (lines : List String) : List Eff :=
  lines.map Eff.logHeaderLine ++ [Eff.logFlush]

/-- Environment of one `monitor_serial` run. -/
structure Env where
  openOk : Bool
  logEnabled : Bool
  port : String
  startTs : String
  la0 : ℚ
  reads : List ReadEvent
  deriving Repr

/-- Backend `monitor_serial` (always logs; log file managed by a `with`
block).  On open failure the `except` clause reports and the `finally`
finds no `ser` in locals (lines 179-185).  On a normal stop the footer
is written (172-175), the `with` block closes the log, the `finally`
closes the port.  On an exception escaping the loop the `with` block
closes the log during unwinding, the `except` reports, the `finally`
closes the port. -/
def monitorBackend (env : Env) : List Eff :=
  if env.openOk then
    headerEffs (backendHeaderLines env.startTs env.port) ++
      (let p := runLoop true true env.la0 env.reads
       p.1 ++
         match p.2 with
         | .normal => [Eff.logFooter, Eff.logClose, Eff.serClose]
         | .raised => [Eff.logClose, Eff.reportError, Eff.serClose]
         | .starved => [])
  else [Eff.reportError]

/-- Raspberrypi `monitor_serial` (logging optional; log file closed in
`finally`, lines 169-173).  On a normal stop the footer is written
inside the `try` (160-163), then `finally` closes log then port; on an
exception the `except` reports (165-168), then `finally` closes log
then port; on open failure nothing was acquired. -/
def monitorRpi (env : Env) : List Eff :=
  if env.openOk then
    (if env.logEnabled then headerEffs (rpiHeaderLines env.startTs env.port)
     else []) ++
      (let p := runLoop env.logEnabled true env.la0 env.reads
       p.1 ++
         match p.2 with
         | .normal =>
           (if env.logEnabled then [Eff.logFooter, Eff.logClose] else []) ++
             [Eff.serClose]
         | .raised =>
           Eff.reportError ::
             (if env.logEnabled then [Eff.logClose] else []) ++ [Eff.serClose]
         | .starved => [])
  else [Eff.reportError]

/-- `main` never calls `sys.exit`, and `monitor_serial` catches every
`Exception` (backend 179-182, raspberrypi 165-168), so the interpreter
always exits with status 0 after a monitor run. -/
def mainExitCode (_env : Env) : Nat := 0

/-- The SIGINT/SIGTERM handler `handle_sigint` over the process state
`(running, rest-of-world)`: it only clears the `running` flag. -/
def handle_sigint {σ : Type} (s : Bool × σ) : Bool × σ := (false, s.2)

/-! ## Helper observations on traces -/

/-- Number of occurrences of an effect in a trace. -/
def countEff (x : Eff) (t : List Eff) : Nat :=
  (t.filter (fun y => decide (y = x))).length

/-- Times of the idle notices of a trace, in order. -/
def idleTimesOf (t : List Eff) : List ℚ :=
  t.filterMap (fun e => match e with | Eff.consoleIdle q => some q | _ => none)

/-- Idle-notice times produced by a burst of empty reads at the given
times, starting from `last_activity = la`: notice at `t` exactly when
`t - la > 10`, and each notice resets `la` to its own time. -/
def idleBurst (la : ℚ) : List ℚ → List ℚ
  | [] => []
  | t :: ts => if t - la > 10 then t :: idleBurst t ts else idleBurst la ts

theorem runLoop_not_running (lo : Bool) (la : ℚ) (evs : List ReadEvent) :
    runLoop lo false la evs = ([], LoopExit.normal) := by
  cases evs <;> rfl

theorem runLoop_nil (lo : Bool) (la : ℚ) :
    runLoop lo true la [] = ([], LoopExit.starved) := rfl

theorem runLoop_cons (lo : Bool) (la : ℚ) (e : ReadEvent) (rest : List ReadEvent) :
    runLoop lo true la (e :: rest) =
      if iterRaises lo la e then (Eff.readCall :: raiseEffs la e, LoopExit.raised)
      else
        let p := runLoop lo (!e.cancelDuring) (iterLa la e) rest
        (Eff.readCall :: iterEffs lo la e ++ p.1, p.2) := rfl

theorem emptyRead_no_raise {lo : Bool} {la : ℚ} {e : ReadEvent}
    (hr : e.result = ReadResult.ok []) (hf : e.logFails = false) :
    iterRaises lo la e = false := by
  simp [iterRaises, hr, hf]

theorem emptyRead_iterEffs {lo : Bool} {la : ℚ} {e : ReadEvent}
    (hr : e.result = ReadResult.ok []) :
    iterEffs lo la e =
      if e.now - la > 10 then
        Eff.consoleIdle e.now ::
          (if lo then [Eff.logIdle e.now, Eff.logFlush] else [])
      else [] := by
  simp [iterEffs, hr]

theorem emptyRead_iterLa {la : ℚ} {e : ReadEvent}
    (hr : e.result = ReadResult.ok []) :
    iterLa la e = if e.now - la > 10 then e.now else la := by
  simp [iterLa, hr]

/-- A burst of empty reads produces no per-frame record, on console or
in the log, whatever the logging mode, the write failures and the
cancellations. -/
theorem burst_no_frame_records (lo : Bool) (la : ℚ) (evs : List ReadEvent)
    (h : ∀ e ∈ evs, e.result = ReadResult.ok []) (hx asc : String) (n : Nat) :
    Eff.consoleFrame hx asc n ∉ (runLoop lo true la evs).1 ∧
      Eff.logFrame hx asc n ∉ (runLoop lo true la evs).1 := by
  induction evs generalizing la with
  | nil => simp [runLoop_nil]
  | cons e rest ih =>
    have he : e.result = ReadResult.ok [] := h e (List.mem_cons_self e rest)
    have hrest : ∀ x ∈ rest, x.result = ReadResult.ok [] :=
      fun x hxm => h x (List.mem_cons_of_mem _ hxm)
    rw [runLoop_cons]
    by_cases hraise : iterRaises lo la e
    · simp only [hraise, if_pos]
      simp only [raiseEffs, he]
      by_cases h10 : e.now - la > 10 <;> simp [h10]
    · simp only [hraise, if_neg, Bool.false_eq_true, not_false_eq_true]
      have hrec := ih (iterLa la e) hrest
      cases hcd : e.cancelDuring
      · simp only [hcd, Bool.not_false]
        rw [emptyRead_iterEffs he]
        by_cases h10 : e.now - la > 10 <;>
          cases lo <;> simp_all
      · simp only [hcd, Bool.not_true, runLoop_not_running]
        rw [emptyRead_iterEffs he]
        by_cases h10 : e.now - la > 10 <;>
          cases lo <;> simp_all

/-- The idle notices of a burst of empty reads (no write failure, no
cancellation) are exactly the `idleBurst` times. -/
theorem burst_idle_times (lo : Bool) (la : ℚ) (evs : List ReadEvent)
    (h : ∀ e ∈ evs, e.result = ReadResult.ok [] ∧ e.logFails = false ∧
      e.cancelDuring = false) :
    idleTimesOf (runLoop lo true la evs).1 =
      idleBurst la (evs.map ReadEvent.now) := by
  induction evs generalizing la with
  | nil => simp [runLoop_nil, idleTimesOf, idleBurst]
  | cons e rest ih =>
    obtain ⟨he, hf, hc⟩ := h e (List.mem_cons_self e rest)
    have hrest := fun x hxm => h x (List.mem_cons_of_mem e hxm)
    rw [runLoop_cons]
    rw [emptyRead_no_raise he hf]
    simp only [Bool.false_eq_true, if_false, hc, Bool.not_false]
    rw [emptyRead_iterLa he, emptyRead_iterEffs he]
    by_cases h10 : e.now - la > 10
    · rw [if_pos h10, if_pos h10]
      have ihh := ih e.now hrest
      cases lo <;> simp_all [idleTimesOf, idleBurst, h10]
    · rw [if_neg h10, if_neg h10]
      have ihh := ih la hrest
      simp_all [idleTimesOf, idleBurst, h10]
      have hn : ¬ (10 < e.now - la) := by linarith
      rw [if_neg hn]

/-- Consecutive `idleBurst` notices are always more than 10 seconds
apart, and the first is more than 10 seconds after the initial
`last_activity`. -/
theorem idleBurst_chain (la : ℚ) (ts : List ℚ) :
    List.Chain (fun a b => b - a > 10) la (idleBurst la ts) := by
  induction ts generalizing la with
  | nil => exact List.Chain.nil
  | cons t ts ih =>
    rw [idleBurst]
    by_cases h10 : t - la > 10
    · rw [if_pos h10]
      exact List.Chain.cons h10 (ih t)
    · rw [if_neg h10]
      exact ih la

/-- A single empty read emits an idle notice exactly when strictly more
than 10 seconds elapsed since `last_activity`. -/
theorem single_empty_read_iff (lo : Bool) (la : ℚ) (e : ReadEvent)
    (hr : e.result = ReadResult.ok []) (hf : e.logFails = false) :
    (Eff.consoleIdle e.now ∈ (runLoop lo true la [e]).1 ↔ e.now - la > 10) := by
  rw [runLoop_cons, emptyRead_no_raise hr hf]
  simp only [Bool.false_eq_true, if_false]
  rw [emptyRead_iterEffs hr]
  cases hcd : e.cancelDuring <;>
    by_cases h10 : e.now - la > 10 <;>
      cases lo <;>
        simp_all [runLoop_nil, runLoop_not_running]

/-- C1: a zero-length read never produces a per-frame record on console
or in the log; it emits an idle notice only when the elapsed time since
`last_activity` strictly exceeds 10 seconds; and since `last_activity`
is reset to `now` on each emission, consecutive idle notices in a burst
of zero-length reads are always more than 10 seconds apart. -/
theorem monitor_idle_rate_limit (lo : Bool) (la : ℚ) (evs : List ReadEvent)
    (h : ∀ e ∈ evs, e.result = ReadResult.ok [] ∧ e.logFails = false ∧
      e.cancelDuring = false) :
    (∀ hx asc n, Eff.consoleFrame hx asc n ∉ (runLoop lo true la evs).1 ∧
        Eff.logFrame hx asc n ∉ (runLoop lo true la evs).1) ∧
    (∀ e : ReadEvent, e.result = ReadResult.ok [] → e.logFails = false →
      (Eff.consoleIdle e.now ∈ (runLoop lo true la [e]).1 ↔ e.now - la > 10)) ∧
    idleTimesOf (runLoop lo true la evs).1 =
      idleBurst la (evs.map ReadEvent.now) ∧
    List.Chain (fun a b => b - a > 10) la (idleBurst la (evs.map ReadEvent.now)) :=
  ⟨fun hx asc n =>
      burst_no_frame_records lo la evs (fun e he => (h e he).1) hx asc n,
   fun e hr hf => single_empty_read_iff lo la e hr hf,
   burst_idle_times lo la evs h,
   idleBurst_chain la _⟩

/-- A concrete burst of four empty reads at times 5, 12, 20 and 23. -/
def burstEvs : List ReadEvent :=
  [⟨ReadResult.ok [], 5, false, false⟩,
   ⟨ReadResult.ok [], 12, false, false⟩,
   ⟨ReadResult.ok [], 20, false, false⟩,
   ⟨ReadResult.ok [], 23, false, false⟩]

theorem monitor_idle_rate_limit_witness :
    (∀ e ∈ burstEvs, e.result = ReadResult.ok [] ∧ e.logFails = false ∧
      e.cancelDuring = false) ∧
    ((∀ hx asc n, Eff.consoleFrame hx asc n ∉ (runLoop true true 0 burstEvs).1 ∧
        Eff.logFrame hx asc n ∉ (runLoop true true 0 burstEvs).1) ∧
      (∀ e : ReadEvent, e.result = ReadResult.ok [] → e.logFails = false →
        (Eff.consoleIdle e.now ∈ (runLoop true true 0 [e]).1 ↔ e.now - 0 > 10)) ∧
      idleTimesOf (runLoop true true 0 burstEvs).1 =
        idleBurst 0 (burstEvs.map ReadEvent.now) ∧
      List.Chain (fun a b => b - a > 10) 0 (idleBurst 0 (burstEvs.map ReadEvent.now))) :=
  ⟨by decide, monitor_idle_rate_limit true 0 burstEvs (by decide)⟩

theorem countEff_nil (x : Eff) : countEff x [] = 0 := rfl

theorem countEff_cons (x y : Eff) (t : List Eff) :
    countEff x (y :: t) = (if y = x then 1 else 0) + countEff x t := by
  by_cases h : y = x <;> simp [countEff, List.filter_cons, h, Nat.add_comm]

theorem countEff_append (x : Eff) (a b : List Eff) :
    countEff x (a ++ b) = countEff x a + countEff x b := by
  simp [countEff, List.filter_append]

theorem countEff_eq_zero (x : Eff) (t : List Eff) (h : x ∉ t) :
    countEff x t = 0 := by
  induction t with
  | nil => rfl
  | cons y t ih =>
    rw [countEff_cons]
    have hyx : ¬ y = x := fun he => h (he ▸ List.mem_cons_self y t)
    rw [if_neg hyx, ih (fun hm => h (List.mem_cons_of_mem _ hm))]

/-- The kinds of effect the read loop itself can emit. -/
def loopEffKind : Eff → Bool
  | Eff.readCall => true
  | Eff.consoleFrame _ _ _ => true
  | Eff.logFrame _ _ _ => true
  | Eff.logFlush => true
  | Eff.consoleIdle _ => true
  | Eff.logIdle _ => true
  | _ => false

theorem iterEffs_kinds (lo : Bool) (la : ℚ) (e : ReadEvent) :
    ∀ y ∈ iterEffs lo la e, loopEffKind y = true := by
  cases hr : e.result with
  | ioErr => simp [iterEffs, hr]
  | ok data =>
    by_cases hd : data.isEmpty <;> by_cases h10 : e.now - la > 10 <;>
      cases lo <;> simp_all [iterEffs, loopEffKind]

theorem raiseEffs_kinds (la : ℚ) (e : ReadEvent) :
    ∀ y ∈ raiseEffs la e, loopEffKind y = true := by
  cases hr : e.result with
  | ioErr => simp [raiseEffs, hr]
  | ok data =>
    by_cases hd : data.isEmpty <;> by_cases h10 : e.now - la > 10 <;>
      simp_all [raiseEffs, loopEffKind]

theorem runLoop_kinds (lo r : Bool) (la : ℚ) (evs : List ReadEvent) :
    ∀ y ∈ (runLoop lo r la evs).1, loopEffKind y = true := by
  induction evs generalizing r la with
  | nil => cases r <;> simp [runLoop_nil, runLoop_not_running]
  | cons e rest ih =>
    cases r
    · simp [runLoop_not_running]
    · rw [runLoop_cons]
      by_cases hraise : iterRaises lo la e
      · rw [if_pos hraise]
        intro y hy
        rcases List.mem_cons.mp hy with h | h
        · rw [h]; rfl
        · exact raiseEffs_kinds la e y h
      · rw [if_neg hraise]
        intro y hy
        rcases List.mem_cons.mp hy with h | h
        · rw [h]; rfl
        rcases List.mem_append.mp h with h | h
        · exact iterEffs_kinds lo la e y h
        · exact ih _ _ y h

theorem runLoop_not_mem {x : Eff} (hx : loopEffKind x = false)
    (lo r : Bool) (la : ℚ) (evs : List ReadEvent) :
    x ∉ (runLoop lo r la evs).1 := by
  intro hm
  have := runLoop_kinds lo r la evs x hm
  rw [hx] at this
  exact Bool.false_ne_true this

theorem headerEffs_not_mem {x : Eff}
    (h1 : ∀ s, x ≠ Eff.logHeaderLine s) (h2 : x ≠ Eff.logFlush)
    (lines : List String) : x ∉ headerEffs lines := by
  intro hm
  rcases List.mem_append.mp hm with h | h
  · obtain ⟨s, _, hs⟩ := List.mem_map.mp h
    exact h1 s hs.symm
  · simp only [List.mem_singleton] at h
    exact h2 h

/-- An iteration whose read does not raise and whose log write does not
fail never raises. -/
theorem iter_no_raise {lo : Bool} {la : ℚ} {e : ReadEvent}
    (h1 : e.result ≠ ReadResult.ioErr) (h2 : e.logFails = false) :
    iterRaises lo la e = false := by
  cases hr : e.result with
  | ioErr => exact absurd hr h1
  | ok data => simp [iterRaises, hr, h2]

/-- If the cancellation flag is set during event `e`, the loop exits
normally right after `e`'s iteration: provided no earlier iteration
raised, the total number of `ser.read` calls is at most the number of
iterations up to and including `e`. -/
theorem runLoop_cancelled (lo : Bool) (la : ℚ)
    (pre : List ReadEvent) (e : ReadEvent) (post : List ReadEvent)
    (hpre : ∀ x ∈ pre, x.result ≠ ReadResult.ioErr ∧ x.logFails = false)
    (he1 : e.result ≠ ReadResult.ioErr) (he2 : e.logFails = false)
    (he3 : e.cancelDuring = true) :
    (runLoop lo true la (pre ++ e :: post)).2 = LoopExit.normal ∧
    countEff Eff.readCall (runLoop lo true la (pre ++ e :: post)).1 ≤
      pre.length + 1 := by
  have hiter : ∀ (lo' : Bool) (la' : ℚ) (y : ReadEvent),
      countEff Eff.readCall (iterEffs lo' la' y) = 0 := by
    intro lo' la' y
    refine countEff_eq_zero _ _ ?_
    cases hr : y.result with
    | ioErr => simp [iterEffs, hr]
    | ok data =>
      by_cases hd : data.isEmpty <;> by_cases h10 : y.now - la' > 10 <;>
        cases lo' <;> simp_all [iterEffs]
  induction pre generalizing la with
  | nil =>
    rw [List.nil_append, runLoop_cons, iter_no_raise he1 he2]
    simp only [Bool.false_eq_true, if_false, he3, Bool.not_true,
      runLoop_not_running]
    refine ⟨trivial, ?_⟩
    rw [List.append_nil, countEff_cons, if_pos rfl, hiter]
    simp
  | cons x pre ih =>
    obtain ⟨hx1, hx2⟩ := hpre x (List.mem_cons_self x pre)
    have hrest := fun y hy => hpre y (List.mem_cons_of_mem x hy)
    rw [List.cons_append, runLoop_cons, iter_no_raise hx1 hx2]
    simp only [Bool.false_eq_true, if_false]
    cases hcd : x.cancelDuring
    · simp only [Bool.not_false]
      obtain ⟨hexit, hcount⟩ := ih (iterLa la x) hrest
      refine ⟨hexit, ?_⟩
      rw [List.cons_append, countEff_cons, if_pos rfl, countEff_append, hiter]
      simp only [List.length_cons]
      omega
    · simp only [Bool.not_true, runLoop_not_running]
      refine ⟨trivial, ?_⟩
      rw [List.append_nil, countEff_cons, if_pos rfl, hiter]
      simp only [List.length_cons]
      omega

theorem countEff_headerEffs (x : Eff) (h1 : ∀ s, x ≠ Eff.logHeaderLine s)
    (h2 : x ≠ Eff.logFlush) (lines : List String) :
    countEff x (headerEffs lines) = 0 :=
  countEff_eq_zero _ _ (headerEffs_not_mem h1 h2 lines)

theorem countEff_runLoop (x : Eff) (hx : loopEffKind x = false)
    (lo r : Bool) (la : ℚ) (evs : List ReadEvent) :
    countEff x (runLoop lo r la evs).1 = 0 :=
  countEff_eq_zero _ _ (runLoop_not_mem hx lo r la evs)

theorem monitorBackend_normal (env : Env) (hopen : env.openOk = true)
    (hexit : (runLoop true true env.la0 env.reads).2 = LoopExit.normal) :
    monitorBackend env =
      headerEffs (backendHeaderLines env.startTs env.port) ++
        ((runLoop true true env.la0 env.reads).1 ++
          [Eff.logFooter, Eff.logClose, Eff.serClose]) := by
  simp only [monitorBackend, hopen, if_true, hexit]

theorem monitorBackend_raised (env : Env) (hopen : env.openOk = true)
    (hexit : (runLoop true true env.la0 env.reads).2 = LoopExit.raised) :
    monitorBackend env =
      headerEffs (backendHeaderLines env.startTs env.port) ++
        ((runLoop true true env.la0 env.reads).1 ++
          [Eff.logClose, Eff.reportError, Eff.serClose]) := by
  simp only [monitorBackend, hopen, if_true, hexit]

theorem monitorRpi_normal (env : Env) (hopen : env.openOk = true)
    (hexit : (runLoop env.logEnabled true env.la0 env.reads).2 =
      LoopExit.normal) :
    monitorRpi env =
      (if env.logEnabled then headerEffs (rpiHeaderLines env.startTs env.port)
       else []) ++
        ((runLoop env.logEnabled true env.la0 env.reads).1 ++
          ((if env.logEnabled then [Eff.logFooter, Eff.logClose] else []) ++
            [Eff.serClose])) := by
  simp only [monitorRpi, hopen, if_true, hexit]

theorem monitorRpi_raised (env : Env) (hopen : env.openOk = true)
    (hexit : (runLoop env.logEnabled true env.la0 env.reads).2 =
      LoopExit.raised) :
    monitorRpi env =
      (if env.logEnabled then headerEffs (rpiHeaderLines env.startTs env.port)
       else []) ++
        ((runLoop env.logEnabled true env.la0 env.reads).1 ++
          (Eff.reportError ::
            (if env.logEnabled then [Eff.logClose] else []) ++
              [Eff.serClose])) := by
  simp only [monitorRpi, hopen, if_true, hexit]

/-- C4: the signal handler only clears the `running` flag; the loop
observes the flag at the iteration boundary after the in-flight read
returns, so after a cancellation during the iteration that processes
event `e` at most one read beyond the preceding ones completes, the
loop exits normally, and each variant closes its acquired resources
exactly once (the log exactly once when it was opened, the serial
channel exactly once). -/
theorem cancellation_clean_shutdown (σ : Type) (env : Env)
    (pre : List ReadEvent) (e : ReadEvent) (post : List ReadEvent)
    (henv : env.reads = pre ++ e :: post) (hopen : env.openOk = true)
    (hpre : ∀ x ∈ pre, x.result ≠ ReadResult.ioErr ∧ x.logFails = false)
    (he1 : e.result ≠ ReadResult.ioErr) (he2 : e.logFails = false)
    (he3 : e.cancelDuring = true) :
    (∀ s : Bool × σ, handle_sigint s = (false, s.2)) ∧
    (∀ lo : Bool, (runLoop lo true env.la0 env.reads).2 = LoopExit.normal ∧
      countEff Eff.readCall (runLoop lo true env.la0 env.reads).1 ≤
        pre.length + 1) ∧
    countEff Eff.readCall (monitorBackend env) ≤ pre.length + 1 ∧
    countEff Eff.readCall (monitorRpi env) ≤ pre.length + 1 ∧
    countEff Eff.logClose (monitorBackend env) = 1 ∧
    countEff Eff.serClose (monitorBackend env) = 1 ∧
    countEff Eff.logClose (monitorRpi env) =
      (if env.logEnabled then 1 else 0) ∧
    countEff Eff.serClose (monitorRpi env) = 1 := by
  have hloop : ∀ lo : Bool,
      (runLoop lo true env.la0 env.reads).2 = LoopExit.normal ∧
      countEff Eff.readCall (runLoop lo true env.la0 env.reads).1 ≤
        pre.length + 1 := by
    intro lo
    rw [henv]
    exact runLoop_cancelled lo env.la0 pre e post hpre he1 he2 he3
  have hB := monitorBackend_normal env hopen (hloop true).1
  have hR := monitorRpi_normal env hopen (hloop env.logEnabled).1
  have hhead : ∀ x : Eff, (∀ s, x ≠ Eff.logHeaderLine s) → x ≠ Eff.logFlush →
      ∀ lines, countEff x
        (if env.logEnabled then headerEffs lines else []) = 0 := by
    intro x h1 h2 lines
    cases henb : env.logEnabled
    · simp [countEff_nil]
    · simp only [if_true]
      exact countEff_headerEffs x h1 h2 lines
  refine ⟨fun s => rfl, hloop, ?_, ?_, ?_, ?_, ?_, ?_⟩
  · rw [hB, countEff_append, countEff_append,
      countEff_headerEffs _ (by intro s; simp) (by simp)]
    have : countEff Eff.readCall [Eff.logFooter, Eff.logClose, Eff.serClose]
        = 0 := by decide
    rw [this]
    have := (hloop true).2
    omega
  · rw [hR, countEff_append, countEff_append,
      hhead _ (by intro s; simp) (by simp)]
    have h0 : countEff Eff.readCall
        ((if env.logEnabled then [Eff.logFooter, Eff.logClose] else []) ++
          [Eff.serClose]) = 0 := by
      cases env.logEnabled <;> decide
    rw [h0]
    have := (hloop env.logEnabled).2
    omega
  · rw [hB, countEff_append, countEff_append,
      countEff_headerEffs _ (by intro s; simp) (by simp),
      countEff_runLoop Eff.logClose rfl]
    decide
  · rw [hB, countEff_append, countEff_append,
      countEff_headerEffs _ (by intro s; simp) (by simp),
      countEff_runLoop Eff.serClose rfl]
    decide
  · rw [hR, countEff_append, countEff_append,
      hhead _ (by intro s; simp) (by simp),
      countEff_runLoop Eff.logClose rfl]
    cases env.logEnabled <;> decide
  · rw [hR, countEff_append, countEff_append,
      hhead _ (by intro s; simp) (by simp),
      countEff_runLoop Eff.serClose rfl]
    cases env.logEnabled <;> decide

/-- A concrete run: one 2-byte frame, then an empty read during which
the operator hits Ctrl+C. -/
def cancelEnv : Env :=
  { openOk := true, logEnabled := true, port := "/dev/ttyUSB0",
    startTs := "2026-01-01 00:00:00", la0 := 0,
    reads := [⟨ReadResult.ok [2, 48], 1, false, false⟩,
              ⟨ReadResult.ok [], 2, false, true⟩] }

theorem cancellation_clean_shutdown_witness :
    (cancelEnv.reads = [⟨ReadResult.ok [2, 48], 1, false, false⟩] ++
        ⟨ReadResult.ok [], 2, false, true⟩ :: [] ∧
      cancelEnv.openOk = true ∧
      (∀ x ∈ [(⟨ReadResult.ok [2, 48], 1, false, false⟩ : ReadEvent)],
        x.result ≠ ReadResult.ioErr ∧ x.logFails = false) ∧
      (⟨ReadResult.ok [], 2, false, true⟩ : ReadEvent).result ≠
        ReadResult.ioErr ∧
      (⟨ReadResult.ok [], 2, false, true⟩ : ReadEvent).logFails = false ∧
      (⟨ReadResult.ok [], 2, false, true⟩ : ReadEvent).cancelDuring = true) ∧
    ((∀ s : Bool × Nat, handle_sigint s = (false, s.2)) ∧
      (∀ lo : Bool,
        (runLoop lo true cancelEnv.la0 cancelEnv.reads).2 = LoopExit.normal ∧
        countEff Eff.readCall (runLoop lo true cancelEnv.la0 cancelEnv.reads).1 ≤
          [(⟨ReadResult.ok [2, 48], 1, false, false⟩ : ReadEvent)].length + 1) ∧
      countEff Eff.readCall (monitorBackend cancelEnv) ≤
        [(⟨ReadResult.ok [2, 48], 1, false, false⟩ : ReadEvent)].length + 1 ∧
      countEff Eff.readCall (monitorRpi cancelEnv) ≤
        [(⟨ReadResult.ok [2, 48], 1, false, false⟩ : ReadEvent)].length + 1 ∧
      countEff Eff.logClose (monitorBackend cancelEnv) = 1 ∧
      countEff Eff.serClose (monitorBackend cancelEnv) = 1 ∧
      countEff Eff.logClose (monitorRpi cancelEnv) =
        (if cancelEnv.logEnabled then 1 else 0) ∧
      countEff Eff.serClose (monitorRpi cancelEnv) = 1) :=
  ⟨⟨by decide, by decide, by decide, by decide, by decide, by decide⟩,
    cancellation_clean_shutdown Nat cancelEnv
      [⟨ReadResult.ok [2, 48], 1, false, false⟩]
      ⟨ReadResult.ok [], 2, false, true⟩ []
      (by decide) (by decide) (by decide) (by decide) (by decide) (by decide)⟩

/-- A run that reaches the loop and then hits a transport error on the
second read. -/
def ioErrEnv : Env :=
  { openOk := true, logEnabled := true, port := "/dev/ttyUSB0",
    startTs := "2026-01-01 00:00:00", la0 := 0,
    reads := [⟨ReadResult.ok [2, 48], 1, false, false⟩,
              ⟨ReadResult.ioErr, 2, false, false⟩] }

/-- On a fatal mid-loop error both variants close the log file during
unwinding without ever writing the footer: the claim that the footer is
written on every stop that reached `RUNNING` fails on this run. -/
theorem footer_missing_on_fatal_error :
    Eff.readCall ∈ monitorBackend ioErrEnv ∧
    Eff.logClose ∈ monitorBackend ioErrEnv ∧
    Eff.logFooter ∉ monitorBackend ioErrEnv ∧
    Eff.readCall ∈ monitorRpi ioErrEnv ∧
    Eff.logClose ∈ monitorRpi ioErrEnv ∧
    Eff.logFooter ∉ monitorRpi ioErrEnv := by decide

/-- C5 (amended): when logging is enabled the log session is always
closed at monitor stop, but the footer is written (immediately before
the close) only on a normal cancellation stop; on a fatal error escaping
the loop the file is closed, flushing buffered data, without a footer. -/
theorem log_session_teardown (env : Env) (hopen : env.openOk = true) :
    ((runLoop true true env.la0 env.reads).2 = LoopExit.normal →
      ∃ t, monitorBackend env =
        t ++ [Eff.logFooter, Eff.logClose, Eff.serClose]) ∧
    ((runLoop true true env.la0 env.reads).2 = LoopExit.raised →
      Eff.logFooter ∉ monitorBackend env ∧
      ∃ t, monitorBackend env =
        t ++ [Eff.logClose, Eff.reportError, Eff.serClose]) ∧
    (env.logEnabled = true →
      ((runLoop env.logEnabled true env.la0 env.reads).2 = LoopExit.normal →
        ∃ t, monitorRpi env =
          t ++ [Eff.logFooter, Eff.logClose, Eff.serClose]) ∧
      ((runLoop env.logEnabled true env.la0 env.reads).2 = LoopExit.raised →
        Eff.logFooter ∉ monitorRpi env ∧
        ∃ t, monitorRpi env =
          t ++ [Eff.reportError, Eff.logClose, Eff.serClose])) := by
  refine ⟨fun hexit => ?_, fun hexit => ?_, fun hlog => ⟨fun hexit => ?_, fun hexit => ?_⟩⟩
  · refine ⟨headerEffs (backendHeaderLines env.startTs env.port) ++
      (runLoop true true env.la0 env.reads).1, ?_⟩
    rw [monitorBackend_normal env hopen hexit, List.append_assoc]
  · constructor
    · rw [monitorBackend_raised env hopen hexit]
      intro hm
      rcases List.mem_append.mp hm with h | h
      · exact headerEffs_not_mem (fun s => by simp) (by simp) _ h
      rcases List.mem_append.mp h with h | h
      · exact @runLoop_not_mem Eff.logFooter rfl _ _ _ _ h
      · simp at h
    · refine ⟨headerEffs (backendHeaderLines env.startTs env.port) ++
        (runLoop true true env.la0 env.reads).1, ?_⟩
      rw [monitorBackend_raised env hopen hexit, List.append_assoc]
  · refine ⟨headerEffs (rpiHeaderLines env.startTs env.port) ++
      (runLoop env.logEnabled true env.la0 env.reads).1, ?_⟩
    rw [monitorRpi_normal env hopen hexit, hlog]
    simp
  · constructor
    · rw [monitorRpi_raised env hopen hexit, hlog]
      intro hm
      rcases List.mem_append.mp hm with h | h
      · simp only [eq_self_iff_true, if_true] at h
        exact headerEffs_not_mem (fun s => by simp) (by simp) _ h
      rcases List.mem_append.mp h with h | h
      · exact @runLoop_not_mem Eff.logFooter rfl _ _ _ _ h
      · simp at h
    · refine ⟨headerEffs (rpiHeaderLines env.startTs env.port) ++
        (runLoop env.logEnabled true env.la0 env.reads).1, ?_⟩
      rw [monitorRpi_raised env hopen hexit, hlog]
      simp

theorem log_session_teardown_witness :
    cancelEnv.openOk = true ∧
    (((runLoop true true cancelEnv.la0 cancelEnv.reads).2 = LoopExit.normal →
      ∃ t, monitorBackend cancelEnv =
        t ++ [Eff.logFooter, Eff.logClose, Eff.serClose]) ∧
    ((runLoop true true cancelEnv.la0 cancelEnv.reads).2 = LoopExit.raised →
      Eff.logFooter ∉ monitorBackend cancelEnv ∧
      ∃ t, monitorBackend cancelEnv =
        t ++ [Eff.logClose, Eff.reportError, Eff.serClose]) ∧
    (cancelEnv.logEnabled = true →
      ((runLoop cancelEnv.logEnabled true cancelEnv.la0 cancelEnv.reads).2 =
          LoopExit.normal →
        ∃ t, monitorRpi cancelEnv =
          t ++ [Eff.logFooter, Eff.logClose, Eff.serClose]) ∧
      ((runLoop cancelEnv.logEnabled true cancelEnv.la0 cancelEnv.reads).2 =
          LoopExit.raised →
        Eff.logFooter ∉ monitorRpi cancelEnv ∧
        ∃ t, monitorRpi cancelEnv =
          t ++ [Eff.reportError, Eff.logClose, Eff.serClose]))) :=
  ⟨by decide, log_session_teardown cancelEnv (by decide)⟩

/-- A run whose `serial.Serial(...)` call raises. -/
def openFailEnv : Env :=
  { openOk := false, logEnabled := true, port := "/dev/nonexistent",
    startTs := "2026-01-01 00:00:00", la0 := 0, reads := [] }

/-- On an open failure the error is reported, no log file is created and
the loop is never entered — but `monitor_serial` swallows the exception
and `main` returns normally, so the process exit status is 0, not
non-zero as the claim states. -/
theorem open_failure_exit_zero :
    monitorBackend openFailEnv = [Eff.reportError] ∧
    monitorRpi openFailEnv = [Eff.reportError] ∧
    mainExitCode openFailEnv = 0 ∧
    ¬ mainExitCode openFailEnv ≠ 0 := by decide

/-- C6 (amended): when opening the serial device fails, the monitor
reports the error, creates no log file, never enters the read loop —
and the process exits with status 0 (the exception is caught inside
`monitor_serial` and `main` returns normally). -/
theorem open_failure_behaviour (env : Env) (h : env.openOk = false) :
    monitorBackend env = [Eff.reportError] ∧
    monitorRpi env = [Eff.reportError] ∧
    Eff.readCall ∉ monitorBackend env ∧
    Eff.readCall ∉ monitorRpi env ∧
    (∀ s, Eff.logHeaderLine s ∉ monitorBackend env) ∧
    (∀ s, Eff.logHeaderLine s ∉ monitorRpi env) ∧
    mainExitCode env = 0 := by
  have hB : monitorBackend env = [Eff.reportError] := by
    simp [monitorBackend, h]
  have hR : monitorRpi env = [Eff.reportError] := by
    simp [monitorRpi, h]
  refine ⟨hB, hR, ?_, ?_, ?_, ?_, rfl⟩
  · rw [hB]; simp
  · rw [hR]; simp
  · intro s; rw [hB]; simp
  · intro s; rw [hR]; simp

theorem open_failure_behaviour_witness :
    openFailEnv.openOk = false ∧
    (monitorBackend openFailEnv = [Eff.reportError] ∧
      monitorRpi openFailEnv = [Eff.reportError] ∧
      Eff.readCall ∉ monitorBackend openFailEnv ∧
      Eff.readCall ∉ monitorRpi openFailEnv ∧
      (∀ s, Eff.logHeaderLine s ∉ monitorBackend openFailEnv) ∧
      (∀ s, Eff.logHeaderLine s ∉ monitorRpi openFailEnv) ∧
      mainExitCode openFailEnv = 0) :=
  ⟨by decide, open_failure_behaviour openFailEnv (by decide)⟩

theorem countEff_readCall_iterEffs (lo : Bool) (la : ℚ) (e : ReadEvent) :
    countEff Eff.readCall (iterEffs lo la e) = 0 := by
  refine countEff_eq_zero _ _ ?_
  cases hr : e.result with
  | ioErr => simp [iterEffs, hr]
  | ok data =>
    by_cases hd : data.isEmpty <;> by_cases h10 : e.now - la > 10 <;>
      cases lo <;> simp_all [iterEffs]

theorem countEff_readCall_raiseEffs (la : ℚ) (e : ReadEvent) :
    countEff Eff.readCall (raiseEffs la e) = 0 := by
  refine countEff_eq_zero _ _ ?_
  cases hr : e.result with
  | ioErr => simp [raiseEffs, hr]
  | ok data =>
    by_cases hd : data.isEmpty <;> by_cases h10 : e.now - la > 10 <;>
      simp_all [raiseEffs]

/-- `last_activity` after the loop has processed the given events,
starting from `la`. -/
def laAfter (la : ℚ) : List ReadEvent → ℚ
  | [] => la
  | e :: rest => laAfter (iterLa la e) rest

theorem laAfter_cons (la : ℚ) (e : ReadEvent) (rest : List ReadEvent) :
    laAfter la (e :: rest) = laAfter (iterLa la e) rest := rfl

/-- If the iteration processing event `e` performs a log write — either
the frame record of a non-empty read, or the idle notice due because
more than 10 seconds passed since the `last_activity` left by `pre` —
and that write fails (the log being open), while no earlier iteration
raised or cancelled, then the loop raises at `e`'s iteration, having
issued exactly one read per iteration up to and including the failing
one. -/
theorem runLoop_logfail (la : ℚ)
    (pre : List ReadEvent) (e : ReadEvent) (post : List ReadEvent)
    (d : List Nat)
    (hpre : ∀ x ∈ pre, x.result ≠ ReadResult.ioErr ∧ x.logFails = false ∧
      x.cancelDuring = false)
    (he1 : e.result = ReadResult.ok d)
    (hw : d ≠ [] ∨ e.now - laAfter la pre > 10)
    (he2 : e.logFails = true) :
    (runLoop true true la (pre ++ e :: post)).2 = LoopExit.raised ∧
    countEff Eff.readCall (runLoop true true la (pre ++ e :: post)).1 =
      pre.length + 1 := by
  induction pre generalizing la with
  | nil =>
    have hraise : iterRaises true la e = true := by
      rcases hw with hd | h10
      · simp [iterRaises, he1, he2, List.isEmpty_iff, hd]
      · have h10x : e.now - la > 10 := h10
        simp [iterRaises, he1, he2, h10x]
    rw [List.nil_append, runLoop_cons, if_pos hraise]
    refine ⟨rfl, ?_⟩
    rw [countEff_cons, if_pos rfl, countEff_readCall_raiseEffs]
    simp
  | cons x pre ih =>
    obtain ⟨hx1, hx2, hx3⟩ := hpre x (List.mem_cons_self x pre)
    have hrest := fun y hy => hpre y (List.mem_cons_of_mem x hy)
    rw [laAfter_cons] at hw
    rw [List.cons_append, runLoop_cons, iter_no_raise hx1 hx2]
    simp only [Bool.false_eq_true, if_false, hx3, Bool.not_false]
    obtain ⟨hexit, hcount⟩ := ih (iterLa la x) hrest hw
    refine ⟨hexit, ?_⟩
    rw [List.cons_append, countEff_cons, if_pos rfl, countEff_append,
      countEff_readCall_iterEffs, hcount]
    simp only [List.length_cons]
    omega

/-- C7: any failing log-sink write mid-loop — a frame-record write or
an idle-notice write, whichever the failing iteration performs — is
fatal to the session: the error is reported, the number of reads stops
at the failing iteration (no further frame is processed), and the
serial channel is still closed exactly once before the monitor
returns. -/
theorem log_write_failure_fatal (env : Env)
    (pre : List ReadEvent) (e : ReadEvent) (post : List ReadEvent)
    (d : List Nat)
    (henv : env.reads = pre ++ e :: post) (hopen : env.openOk = true)
    (hlog : env.logEnabled = true)
    (hpre : ∀ x ∈ pre, x.result ≠ ReadResult.ioErr ∧ x.logFails = false ∧
      x.cancelDuring = false)
    (he1 : e.result = ReadResult.ok d)
    (hw : d ≠ [] ∨ e.now - laAfter env.la0 pre > 10)
    (he2 : e.logFails = true) :
    Eff.reportError ∈ monitorBackend env ∧
    Eff.reportError ∈ monitorRpi env ∧
    countEff Eff.readCall (monitorBackend env) = pre.length + 1 ∧
    countEff Eff.readCall (monitorRpi env) = pre.length + 1 ∧
    countEff Eff.serClose (monitorBackend env) = 1 ∧
    countEff Eff.serClose (monitorRpi env) = 1 := by
  have hloopB : (runLoop true true env.la0 env.reads).2 = LoopExit.raised ∧
      countEff Eff.readCall (runLoop true true env.la0 env.reads).1 =
        pre.length + 1 := by
    rw [henv]
    exact runLoop_logfail env.la0 pre e post d hpre he1 hw he2
  have hloopR : (runLoop env.logEnabled true env.la0 env.reads).2 =
      LoopExit.raised ∧
      countEff Eff.readCall (runLoop env.logEnabled true env.la0 env.reads).1 =
        pre.length + 1 := by
    rw [hlog]
    exact hloopB
  have hB := monitorBackend_raised env hopen hloopB.1
  have hR := monitorRpi_raised env hopen hloopR.1
  refine ⟨?_, ?_, ?_, ?_, ?_, ?_⟩
  · rw [hB]
    exact List.mem_append.mpr (Or.inr (List.mem_append.mpr (Or.inr
      (by decide))))
  · rw [hR, hlog]
    refine List.mem_append.mpr (Or.inr (List.mem_append.mpr (Or.inr ?_)))
    simp
  · rw [hB, countEff_append, countEff_append,
      countEff_headerEffs _ (by intro s; simp) (by simp), hloopB.2]
    have hz : countEff Eff.readCall
        [Eff.logClose, Eff.reportError, Eff.serClose] = 0 := by decide
    rw [hz]
    omega
  · rw [hR, hlog, countEff_append, countEff_append]
    simp only [if_true]
    rw [countEff_headerEffs _ (by intro s; simp) (by simp)]
    have h2 := hloopR.2
    rw [hlog] at h2
    rw [h2]
    have hz : countEff Eff.readCall
        ([Eff.reportError, Eff.logClose] ++ [Eff.serClose]) = 0 := by decide
    rw [hz]
    omega
  · rw [hB, countEff_append, countEff_append,
      countEff_headerEffs _ (by intro s; simp) (by simp),
      countEff_runLoop Eff.serClose rfl]
    decide
  · rw [hR, hlog, countEff_append, countEff_append]
    simp only [if_true]
    rw [countEff_headerEffs _ (by intro s; simp) (by simp),
      countEff_runLoop Eff.serClose rfl]
    decide

/-- A run where a frame arrives at t=1, then a silent read at t=20
makes the idle notice due — and that idle-notice log write fails
(simulated disk-full). -/
def idleFailEnv : Env :=
  { openOk := true, logEnabled := true, port := "/dev/ttyUSB0",
    startTs := "2026-01-01 00:00:00", la0 := 0,
    reads := [⟨ReadResult.ok [72, 73], 1, false, false⟩,
              ⟨ReadResult.ok [], 20, true, false⟩,
              ⟨ReadResult.ok [76, 77], 21, false, false⟩] }

theorem log_write_failure_fatal_witness :
    (idleFailEnv.reads = [⟨ReadResult.ok [72, 73], 1, false, false⟩] ++
        ⟨ReadResult.ok [], 20, true, false⟩ ::
          [⟨ReadResult.ok [76, 77], 21, false, false⟩] ∧
      idleFailEnv.openOk = true ∧ idleFailEnv.logEnabled = true ∧
      (∀ x ∈ [(⟨ReadResult.ok [72, 73], 1, false, false⟩ : ReadEvent)],
        x.result ≠ ReadResult.ioErr ∧ x.logFails = false ∧
          x.cancelDuring = false) ∧
      (⟨ReadResult.ok [], 20, true, false⟩ : ReadEvent).result =
        ReadResult.ok [] ∧
      (([] : List Nat) ≠ [] ∨
        (⟨ReadResult.ok [], 20, true, false⟩ : ReadEvent).now -
          laAfter idleFailEnv.la0
            [⟨ReadResult.ok [72, 73], 1, false, false⟩] > 10) ∧
      (⟨ReadResult.ok [], 20, true, false⟩ : ReadEvent).logFails = true) ∧
    (Eff.reportError ∈ monitorBackend idleFailEnv ∧
      Eff.reportError ∈ monitorRpi idleFailEnv ∧
      countEff Eff.readCall (monitorBackend idleFailEnv) =
        [(⟨ReadResult.ok [72, 73], 1, false, false⟩ : ReadEvent)].length + 1 ∧
      countEff Eff.readCall (monitorRpi idleFailEnv) =
        [(⟨ReadResult.ok [72, 73], 1, false, false⟩ : ReadEvent)].length + 1 ∧
      countEff Eff.serClose (monitorBackend idleFailEnv) = 1 ∧
      countEff Eff.serClose (monitorRpi idleFailEnv) = 1) :=
  ⟨⟨by decide, by decide, by decide, by decide, by decide,
    Or.inr (by norm_num [laAfter, iterLa, idleFailEnv]), by decide⟩,
    log_write_failure_fatal idleFailEnv
      [⟨ReadResult.ok [72, 73], 1, false, false⟩]
      ⟨ReadResult.ok [], 20, true, false⟩
      [⟨ReadResult.ok [76, 77], 21, false, false⟩] []
      (by decide) (by decide) (by decide) (by decide) (by decide)
      (Or.inr (by norm_num [laAfter, iterLa, idleFailEnv])) (by decide)⟩

/-- “Every `logClose` precedes every `serClose`”: scanning the trace,
once a `serClose` is seen no `logClose` may follow it. -/
def logBeforeSer : List Eff → Bool
  | [] => true
  | x :: rest =>
    if x = Eff.serClose then rest.all (fun y => decide (y ≠ Eff.logClose))
    else logBeforeSer rest

theorem logBeforeSer_cons (x : Eff) (rest : List Eff) :
    logBeforeSer (x :: rest) =
      if x = Eff.serClose then rest.all (fun y => decide (y ≠ Eff.logClose))
      else logBeforeSer rest := rfl

theorem logBeforeSer_append (a b : List Eff) (h : Eff.serClose ∉ a) :
    logBeforeSer (a ++ b) = logBeforeSer b := by
  induction a with
  | nil => rfl
  | cons x a ih =>
    rw [List.cons_append, logBeforeSer_cons]
    have hx : ¬ x = Eff.serClose := fun hxe => h (hxe ▸ List.mem_cons_self x a)
    rw [if_neg hx]
    exact ih (fun hm => h (List.mem_cons_of_mem _ hm))

theorem monitorBackend_starved (env : Env) (hopen : env.openOk = true)
    (hexit : (runLoop true true env.la0 env.reads).2 = LoopExit.starved) :
    monitorBackend env =
      headerEffs (backendHeaderLines env.startTs env.port) ++
        ((runLoop true true env.la0 env.reads).1 ++ []) := by
  simp only [monitorBackend, hopen, if_true, hexit]

theorem monitorRpi_starved (env : Env) (hopen : env.openOk = true)
    (hexit : (runLoop env.logEnabled true env.la0 env.reads).2 =
      LoopExit.starved) :
    monitorRpi env =
      (if env.logEnabled then headerEffs (rpiHeaderLines env.startTs env.port)
       else []) ++
        ((runLoop env.logEnabled true env.la0 env.reads).1 ++ []) := by
  simp only [monitorRpi, hopen, if_true, hexit]

theorem serClose_not_mem_upstream (env : Env) (lines : List String)
    (lo r : Bool) (la : ℚ) (evs : List ReadEvent) :
    Eff.serClose ∉
      (if env.logEnabled then headerEffs lines else []) ++
        (runLoop lo r la evs).1 ∧
    Eff.serClose ∉ headerEffs lines ++ (runLoop lo r la evs).1 := by
  constructor
  · intro hm
    rcases List.mem_append.mp hm with h | h
    · cases henb : env.logEnabled <;> rw [henb] at h
      · simp at h
      · simp only [if_true] at h
        exact headerEffs_not_mem (fun s => by simp) (by simp) _ h
    · exact @runLoop_not_mem Eff.serClose rfl _ _ _ _ h
  · intro hm
    rcases List.mem_append.mp hm with h | h
    · exact headerEffs_not_mem (fun s => by simp) (by simp) _ h
    · exact @runLoop_not_mem Eff.serClose rfl _ _ _ _ h

/-- C8: on every exit path of either variant, the log file close (when
it happens) precedes the serial-port close; the serial close appears at
most once in the trace, and only on runs where the port was actually
opened (`if 'ser' in locals() and ser.is_open`). -/
theorem resource_release_order (env : Env) :
    logBeforeSer (monitorBackend env) = true ∧
    logBeforeSer (monitorRpi env) = true ∧
    countEff Eff.serClose (monitorBackend env) ≤ 1 ∧
    countEff Eff.serClose (monitorRpi env) ≤ 1 ∧
    (env.openOk = false →
      Eff.serClose ∉ monitorBackend env ∧ Eff.serClose ∉ monitorRpi env) := by
  by_cases hopen : env.openOk = true
  · have hnsB := (serClose_not_mem_upstream env
      (backendHeaderLines env.startTs env.port) true true env.la0 env.reads).2
    have hnsR := (serClose_not_mem_upstream env
      (rpiHeaderLines env.startTs env.port) env.logEnabled true env.la0
      env.reads).1
    have hcntB : countEff Eff.serClose
        (headerEffs (backendHeaderLines env.startTs env.port) ++
          (runLoop true true env.la0 env.reads).1) = 0 :=
      countEff_eq_zero _ _ hnsB
    have hcntR : countEff Eff.serClose
        ((if env.logEnabled then
            headerEffs (rpiHeaderLines env.startTs env.port) else []) ++
          (runLoop env.logEnabled true env.la0 env.reads).1) = 0 :=
      countEff_eq_zero _ _ hnsR
    have hB : ∀ tail, monitorBackend env =
        headerEffs (backendHeaderLines env.startTs env.port) ++
          ((runLoop true true env.la0 env.reads).1 ++ tail) →
        logBeforeSer tail = true → countEff Eff.serClose tail ≤ 1 →
        logBeforeSer (monitorBackend env) = true ∧
        countEff Eff.serClose (monitorBackend env) ≤ 1 := by
      intro tail hshape htail hcnt
      rw [hshape, ← List.append_assoc]
      rw [logBeforeSer_append _ _ hnsB, countEff_append, hcntB]
      exact ⟨htail, by omega⟩
    have hR : ∀ tail, monitorRpi env =
        (if env.logEnabled then
          headerEffs (rpiHeaderLines env.startTs env.port) else []) ++
          ((runLoop env.logEnabled true env.la0 env.reads).1 ++ tail) →
        logBeforeSer tail = true → countEff Eff.serClose tail ≤ 1 →
        logBeforeSer (monitorRpi env) = true ∧
        countEff Eff.serClose (monitorRpi env) ≤ 1 := by
      intro tail hshape htail hcnt
      rw [hshape, ← List.append_assoc]
      rw [logBeforeSer_append _ _ hnsR, countEff_append, hcntR]
      exact ⟨htail, by omega⟩
    have hBpair : logBeforeSer (monitorBackend env) = true ∧
        countEff Eff.serClose (monitorBackend env) ≤ 1 := by
      cases hexit : (runLoop true true env.la0 env.reads).2 with
      | normal =>
        exact hB _ (monitorBackend_normal env hopen hexit) (by decide)
          (by decide)
      | raised =>
        exact hB _ (monitorBackend_raised env hopen hexit) (by decide)
          (by decide)
      | starved =>
        exact hB _ (monitorBackend_starved env hopen hexit) (by decide)
          (by decide)
    have hRpair : logBeforeSer (monitorRpi env) = true ∧
        countEff Eff.serClose (monitorRpi env) ≤ 1 := by
      cases hexit : (runLoop env.logEnabled true env.la0 env.reads).2 with
      | normal =>
        refine hR _ (monitorRpi_normal env hopen hexit) ?_ ?_ <;>
          cases env.logEnabled <;> decide
      | raised =>
        refine hR _ (monitorRpi_raised env hopen hexit) ?_ ?_ <;>
          cases env.logEnabled <;> decide
      | starved =>
        exact hR _ (monitorRpi_starved env hopen hexit) (by decide)
          (by decide)
    exact ⟨hBpair.1, hRpair.1, hBpair.2, hRpair.2,
      fun hfalse => absurd hopen (by rw [hfalse]; simp)⟩
  · have hfalse : env.openOk = false := by
      cases h : env.openOk
      · rfl
      · exact absurd h hopen
    have hB : monitorBackend env = [Eff.reportError] := by
      simp [monitorBackend, hfalse]
    have hR : monitorRpi env = [Eff.reportError] := by
      simp [monitorRpi, hfalse]
    rw [hB, hR]
    refine ⟨by decide, by decide, by decide, by decide, fun _ => ⟨?_, ?_⟩⟩ <;>
      decide

theorem resource_release_order_witness :
    logBeforeSer (monitorBackend ioErrEnv) = true ∧
    logBeforeSer (monitorRpi ioErrEnv) = true ∧
    countEff Eff.serClose (monitorBackend ioErrEnv) ≤ 1 ∧
    countEff Eff.serClose (monitorRpi ioErrEnv) ≤ 1 ∧
    (ioErrEnv.openOk = false →
      Eff.serClose ∉ monitorBackend ioErrEnv ∧
      Eff.serClose ∉ monitorRpi ioErrEnv) :=
  resource_release_order ioErrEnv

/-- Modelled from the spec, section 6 (log file format): the header
block
```
=== <session label> ===
開始時刻: <start timestamp>
ポート: <device path>
設定: 9600bps, 8bit, Even parity, 1 stop bit
==================================================
```
with the session label and the two run-dependent fields as parameters
(the separator shown in the spec is a line of 50 `=` characters,
written here as a replicate). -/
def specSection6HeaderLines (label ts port : String) : List String :=
  ["=== " ++ label ++ " ===",
   "開始時刻: " ++ ts,
   "ポート: " ++ port,
   "設定: 9600bps, 8bit, Even parity, 1 stop bit",
   String.mk (List.replicate 50 '=')]

/-- The raspberrypi header does not match the section-6 format exactly:
it writes six lines, the extra one being `VMIN=16, VTIME=5 (0.5秒)`. -/
theorem rpi_header_extra_line :
    rpiHeaderLines "2026-01-01 00:00:00" "/dev/ttyUSB0" ≠
      specSection6HeaderLines "シリアル通信ログ" "2026-01-01 00:00:00"
        "/dev/ttyUSB0" ∧
    (rpiHeaderLines "2026-01-01 00:00:00" "/dev/ttyUSB0").length = 6 ∧
    (specSection6HeaderLines "シリアル通信ログ" "2026-01-01 00:00:00"
      "/dev/ttyUSB0").length = 5 ∧
    "VMIN=16, VTIME=5 (0.5秒)" ∈
      rpiHeaderLines "2026-01-01 00:00:00" "/dev/ttyUSB0" := by decide

/-- C9 (amended): when logging is enabled both variants truncate the
log file and write a header block — label line, start timestamp, device
path, fixed link profile — before any frame record, flushing exactly
once immediately after it; the backend header matches the section-6
format exactly, while the raspberrypi header inserts one additional
`VMIN=16, VTIME=5 (0.5秒)` line before the separator. -/
theorem header_format (ts port : String) (env : Env)
    (hopen : env.openOk = true) :
    backendHeaderLines ts port =
      specSection6HeaderLines "シリアル通信ログ" ts port ∧
    rpiHeaderLines ts port =
      (specSection6HeaderLines "シリアル通信ログ" ts port).take 4 ++
        "VMIN=16, VTIME=5 (0.5秒)" ::
          (specSection6HeaderLines "シリアル通信ログ" ts port).drop 4 ∧
    headerEffs (backendHeaderLines ts port) =
      (backendHeaderLines ts port).map Eff.logHeaderLine ++ [Eff.logFlush] ∧
    (∃ rest, monitorBackend env =
      ((backendHeaderLines env.startTs env.port).map Eff.logHeaderLine ++
        [Eff.logFlush]) ++ rest) ∧
    (env.logEnabled = true →
      ∃ rest, monitorRpi env =
        ((rpiHeaderLines env.startTs env.port).map Eff.logHeaderLine ++
          [Eff.logFlush]) ++ rest) := by
  refine ⟨?_, ?_, rfl, ?_, ?_⟩
  · rfl
  · rfl
  · cases hexit : (runLoop true true env.la0 env.reads).2 with
    | normal => exact ⟨_, monitorBackend_normal env hopen hexit⟩
    | raised => exact ⟨_, monitorBackend_raised env hopen hexit⟩
    | starved => exact ⟨_, monitorBackend_starved env hopen hexit⟩
  · intro hlog
    cases hexit : (runLoop env.logEnabled true env.la0 env.reads).2 with
    | normal =>
      have h := monitorRpi_normal env hopen hexit
      rw [hlog] at h
      simp only [eq_self_iff_true, if_true] at h
      exact ⟨_, h⟩
    | raised =>
      have h := monitorRpi_raised env hopen hexit
      rw [hlog] at h
      simp only [eq_self_iff_true, if_true] at h
      exact ⟨_, h⟩
    | starved =>
      have h := monitorRpi_starved env hopen hexit
      rw [hlog] at h
      simp only [eq_self_iff_true, if_true] at h
      exact ⟨_, h⟩

theorem header_format_witness :
    cancelEnv.openOk = true ∧
    (backendHeaderLines "2026-01-01 00:00:00" "/dev/ttyUSB0" =
      specSection6HeaderLines "シリアル通信ログ" "2026-01-01 00:00:00"
        "/dev/ttyUSB0" ∧
    rpiHeaderLines "2026-01-01 00:00:00" "/dev/ttyUSB0" =
      (specSection6HeaderLines "シリアル通信ログ" "2026-01-01 00:00:00"
        "/dev/ttyUSB0").take 4 ++
        "VMIN=16, VTIME=5 (0.5秒)" ::
          (specSection6HeaderLines "シリアル通信ログ" "2026-01-01 00:00:00"
            "/dev/ttyUSB0").drop 4 ∧
    headerEffs (backendHeaderLines "2026-01-01 00:00:00" "/dev/ttyUSB0") =
      (backendHeaderLines "2026-01-01 00:00:00" "/dev/ttyUSB0").map
        Eff.logHeaderLine ++ [Eff.logFlush] ∧
    (∃ rest, monitorBackend cancelEnv =
      ((backendHeaderLines cancelEnv.startTs cancelEnv.port).map
        Eff.logHeaderLine ++ [Eff.logFlush]) ++ rest) ∧
    (cancelEnv.logEnabled = true →
      ∃ rest, monitorRpi cancelEnv =
        ((rpiHeaderLines cancelEnv.startTs cancelEnv.port).map
          Eff.logHeaderLine ++ [Eff.logFlush]) ++ rest)) :=
  ⟨by decide,
    header_format "2026-01-01 00:00:00" "/dev/ttyUSB0" cancelEnv (by decide)⟩

/-! ## The STARTING phase

Program order of the statements of `monitor_serial` before the read
loop, in both variants: open the port, configure `VMIN`/`VTIME`
coalescing via termios, print the banner, install the SIGINT/SIGTERM
handlers, initialise `last_activity`, open the log file, enter the
loop. -/

/-- One setup statement of the STARTING phase. -/
inductive SetupAction
  | openSerial
  | configTermios
  | printBanner
  | installHandlers
  | initLastActivity
  | openLog
  | enterLoop
  deriving DecidableEq, Repr

/-- Backend `monitor_serial` setup order (lines 99-140). -/
def backendSetup : List SetupAction :=
  [SetupAction.openSerial, SetupAction.configTermios, SetupAction.printBanner,
   SetupAction.installHandlers, SetupAction.initLastActivity,
   SetupAction.openLog, SetupAction.enterLoop]

/-- Raspberrypi `monitor_serial` setup order (lines 83-123). -/
def rpiSetup : List SetupAction :=
  [SetupAction.openSerial, SetupAction.configTermios, SetupAction.printBanner,
   SetupAction.installHandlers, SetupAction.initLastActivity,
   SetupAction.openLog, SetupAction.enterLoop]

/-- Has `signal.signal(...)` run within the first `k` setup actions? -/
def handlersInstalled (acts : List SetupAction) (k : Nat) : Bool :=
  (acts.take k).any (fun a => decide (a = SetupAction.installHandlers))

/-- The `running` flag after an operator interrupt delivered once `k`
setup actions have completed: `handle_sigint` clears it only if the
handler is already registered; before that the interrupt follows the
process-default disposition and never touches `running`. -/
def runningAfterSignal (acts : List SetupAction) (k : Nat) : Bool :=
  !handlersInstalled acts k

/-- C10: both variants install the SIGINT/SIGTERM handlers only after
the serial port has been opened and its `VMIN`/`VTIME` coalescing
configured (the first three setup actions are open, configure, banner);
an interrupt delivered at any point before the handler installation
completes is not converted into the cancellation flag. -/
theorem handlers_installed_after_open_and_config :
    backendSetup.take 3 =
      [SetupAction.openSerial, SetupAction.configTermios,
        SetupAction.printBanner] ∧
    rpiSetup.take 3 =
      [SetupAction.openSerial, SetupAction.configTermios,
        SetupAction.printBanner] ∧
    handlersInstalled backendSetup 3 = false ∧
    handlersInstalled rpiSetup 3 = false ∧
    handlersInstalled backendSetup 4 = true ∧
    handlersInstalled rpiSetup 4 = true ∧
    (∀ k : Nat, k ≤ 3 →
      runningAfterSignal backendSetup k = true ∧
      runningAfterSignal rpiSetup k = true) := by decide

theorem handlers_installed_after_open_and_config_witness :
    runningAfterSignal backendSetup 2 = true ∧
    runningAfterSignal rpiSetup 2 = true :=
  handlers_installed_after_open_and_config.2.2.2.2.2.2 2 (by decide)

end SerialMonitor
